/-
  Verification of the sketch-based-modeling repository
  (Blending_Project/scripts/cross_section_extract_cmd.py and
  Blending_Project/scripts/curve_fitting_UI.py).

  Numbers are modelled as exact rationals (the claims under study are about
  dataflow, slicing, counting and text format, not floating-point rounding).
  External host libraries (Maya's API, the separate `curve_fitting` module,
  which is not part of the repository sources) are modelled as parameters:
  an abstract record of functions (`CurveFitting`), an abstract name-lookup
  environment, and an abstract vector-normalisation function.
-/
import Mathlib

/-- Vectors of Maya's MVector kind: an (x, y, z) triple of rationals. -/
abbrev Vec3 : Type := ℚ × ℚ × ℚ

/-- Planar centers as used by the UI (only .x() and .y() are ever read). -/
abbrev Center : Type := ℚ × ℚ

/-- Python character strings, modelled as lists of characters. -/
abbrev Str : Type := List Char

/-- Python heterogeneous list entries: the angle rows built by
`Canvas.cut_curve` can hold both numbers and MVectors (see line 593 of
curve_fitting_UI.py, which extends an angle row with vertices). -/
inductive PyVal : Type
  | num (q : ℚ)
  | vec (v : Vec3)
deriving DecidableEq, Repr

/-- Python exceptions relevant to the embedded code. -/
inductive PyErr : Type
  | valueError
  | indexError
  | zeroDivisionError
deriving DecidableEq, Repr

/-- Python slicing xs[a:b] for nonnegative bounds: elements with index
a ≤ i < b, out-of-range bounds clamped. -/
def pySlice (xs : List α) (a b : Nat) : List α :=
  (xs.take b).drop a

/-- Splits a character list at every character satisfying p, keeping empty
pieces (the semantics of Python's str.split(sep) for each claimed separator
occurrence).  Always returns at least one piece. -/
def splitOnP (p : Char → Bool) : Str → List Str
  | [] => [[]]
  | x :: xs =>
    let r := splitOnP p xs
    if p x then [] :: r else (x :: r.headD []) :: r.tail

/-- Python's file.readlines() followed by stripping the line terminators:
splitting on a newline character, except that a file ending in a newline has
no empty final line. -/
def pyReadlines (s : Str) : List Str :=
  let parts := splitOnP (fun c => c = '\n') s
  if parts.getLast? = some [] then parts.dropLast else parts

/-- Whitespace characters recognised by Python's str.split(). -/
def pySpace (c : Char) : Bool :=
  c = ' ' || c = '\t' || c = '\n' || c = '\r'

/-- Python's str.split() with no argument: split on whitespace runs and
discard empty pieces. -/
def pySplitWS (s : Str) : List Str :=
  (splitOnP pySpace s).filter (fun t => t ≠ [])

/-- Numeric value of a digit string. -/
def digitsVal (l : Str) : Nat :=
  l.foldl (fun n c => 10 * n + (c.toNat - '0'.toNat)) 0

/-- The string is nonempty and consists of decimal digits only. -/
def allDigits (l : Str) : Bool :=
  l.all Char.isDigit

/-- Unsigned part of Python's float() literal parsing, restricted to plain
decimal forms digits, digits.digits, digits. and .digits (no exponents,
inf or nan: none of those shapes occur in the text this development
examines, and every string at issue is either such a plain decimal or
contains a character no float literal may contain). -/
def pyFloatUnsigned (s : Str) : Option ℚ :=
  match splitOnP (fun c => c = '.') s with
  | [ip] =>
    if ip ≠ [] && allDigits ip then some (digitsVal ip) else none
  | [ip, fp] =>
    if (ip ≠ [] || fp ≠ []) && allDigits ip && allDigits fp then
      some ((digitsVal ip : ℚ) + (digitsVal fp : ℚ) / (10 ^ fp.length))
    else none
  | _ => none

/-- Python's float() on a token, with an optional sign. -/
def pyFloat (s : Str) : Option ℚ :=
  match s with
  | '-' :: rest => (pyFloatUnsigned rest).map (fun q => -q)
  | '+' :: rest => pyFloatUnsigned rest
  | _ => pyFloatUnsigned s

section CrossSectionExtract

/-- One entry of a Maya selection list, as seen through the kMesh/kJoint
iteration filters of CrossSectionExtractCmd.parseArguments; the payload is
an abstract DAG-path identifier. -/
inductive SelItem : Type
  | mesh (dag : Nat)
  | joint (dag : Nat)
  | other
deriving DecidableEq, Repr

/-- Errors raised by CrossSectionExtractCmd.parseArguments (lines 129-145:
the four ValueError messages) or propagated from
MGlobal.getSelectionListByName when a name matches nothing. -/
inductive ParseErr : Type
  | noMesh
  | multiMesh
  | noBone
  | multiBone
  | nameNotFound
deriving DecidableEq, Repr

/-- The command state assembled by parseArguments. -/
structure ParseResult : Type where
  u_parameter : ℚ
  mesh_name : String
  bone_name : String
  mesh_dagPath : Nat
  bone_dagPath : Nat
deriving DecidableEq, Repr

/-- The meshes of a selection list, in iteration order (MItSelectionList
with the kMesh filter). -/
def selMeshes (sel : List SelItem) : List Nat :=
  sel.filterMap (fun s => match s with | .mesh d => some d | _ => none)

/-- The joints of a selection list, in iteration order (MItSelectionList
with the kJoint filter). -/
def selJoints (sel : List SelItem) : List Nat :=
  sel.filterMap (fun s => match s with | .joint d => some d | _ => none)

/-- Embedding of CrossSectionExtractCmd.parseArguments (lines 107-162).
The flag values are Options (isFlagSet); absent flags leave the __init__
defaults u=0, mesh_name='', bone_name=''.  When at least one of the two
names is empty the active selection is scanned: the mesh loop keeps the
last mesh and counts them, raising on a count of zero or more than one,
then the joint loop does the same.  Otherwise each name is resolved through
MGlobal.getSelectionListByName, modelled by the abstract environment
`byName` (an empty result list models the kNotFound exception, which the
code re-raises); the code then takes getDagPath(0), the first match,
without any count check. -/
def parseArguments (mu : Option ℚ) (mmn mbn : Option String)
    (sel : List SelItem) (byName : String → List Nat) :
    Except ParseErr ParseResult :=
  let u := mu.getD 0
  let mesh_name := mmn.getD ""
  let bone_name := mbn.getD ""
  if mesh_name = "" ∨ bone_name = "" then
    let meshes := selMeshes sel
    if meshes.length = 0 then .error .noMesh
    else if 1 < meshes.length then .error .multiMesh
    else
      let joints := selJoints sel
      if joints.length = 0 then .error .noBone
      else if 1 < joints.length then .error .multiBone
      else .ok { u_parameter := u, mesh_name := mesh_name,
                 bone_name := bone_name,
                 mesh_dagPath := meshes.getLastD 0,
                 bone_dagPath := joints.getLastD 0 }
  else
    match byName mesh_name with
    | [] => .error .nameNotFound
    | m :: _ =>
      match byName bone_name with
      | [] => .error .nameNotFound
      | b :: _ => .ok { u_parameter := u, mesh_name := mesh_name,
                        bone_name := bone_name,
                        mesh_dagPath := m, bone_dagPath := b }

/-- Whether an Except value is a success. -/
def exceptOk : Except ε α → Bool
  | .ok _ => true
  | .error _ => false

/-- Embedding of the point construction inside line_normal
(cross_section_extract_cmd.py lines 203-214): the slope of the
perpendicular through p0 to the line p1p2 is computed by a division that
Python aborts with ZeroDivisionError when p1.y = p2.y; otherwise the point
(xp, yp) on that perpendicular at xp = x0 - 1 is packed, with a zero third
component, into an MVector. -/
def line_normal_point (p0 p1 p2 : Vec3) : Except PyErr Vec3 :=
  let x0 := p0.1; let y0 := p0.2.1
  let x1 := p1.1; let x2 := p2.1
  let y1 := p1.2.1; let y2 := p2.2.1
  if y1 - y2 = 0 then .error .zeroDivisionError
  else
    let slop := -(x1 - x2) / (y1 - y2)
    let xp := x0 - 1
    let yp := xp * slop + y0 - slop * x0
    .ok (xp, yp, 0)

/-- Embedding of line_normal (lines 203-216): the constructed point is
normalised by MVector.normalize, an external Maya operation modelled as an
abstract function nrm. -/
def line_normal (nrm : Vec3 → Vec3) (p0 p1 p2 : Vec3) : Except PyErr Vec3 :=
  (line_normal_point p0 p1 p2).map nrm

/-- The nrm parameter models a normalisation: it rescales its argument by a
nonnegative factor (MVector.normalize divides by the length, or leaves a
zero vector unchanged). -/
def IsRescaling (nrm : Vec3 → Vec3) : Prop :=
  ∀ v : Vec3, ∃ c : ℚ, 0 ≤ c ∧ nrm v = (c * v.1, c * v.2.1, c * v.2.2)

/-- Planar dot product of the xy-projections of two vectors. -/
def dotXY (u v : Vec3) : ℚ :=
  u.1 * v.1 + u.2.1 * v.2.1

/-- Componentwise difference of MVectors. -/
def vsub (u v : Vec3) : Vec3 :=
  (u.1 - v.1, u.2.1 - v.2.1, u.2.2 - v.2.2)

end CrossSectionExtract

section CurveFittingUI

/-- Abstract interface of the external curve_fitting module (imported by
curve_fitting_UI.py but not part of the repository sources).  The claims
under study are about the UI's own dataflow, so these functions are kept
as parameters; only their call signatures, which are fully determined by
the call sites, are fixed here. -/
structure CurveFitting : Type where
  getCenter : List Vec3 → Center
  get_d_bar : List Vec3 → Center → List ℚ
  calculateAngle : List Vec3 → Center → List ℚ
  calculateTangent : List Vec3 → List ℚ → List Vec3
  calculateNormal : List Vec3 → List Vec3
  calculateCurvature : List Vec3 → List ℚ → List ℚ
  findJ : List Vec3 → List ℚ → List ℚ → Center → ℚ → ℚ → Nat
  getCoefficients : Nat → List Vec3 → Center → List ℚ → List ℚ × List ℚ
  formGeneralizedEllipse :
    List ℚ → List ℚ → List Vec3 → Center → List ℚ → List ℚ →
    List Vec3 × ℚ × ℚ
  getCoefficients_for_first_generalized_elliptic_segment :
    List Vec3 → List ℚ → Center → Nat → List ℚ × List ℚ
  getCoefficients_for_second_half_of_symmetrical_ellipse :
    List ℚ → List ℚ → List ℚ × List ℚ
  form_vertices_of_segmented_ellipse :
    List Vec3 → List Vec3 → Center → Center → List ℚ → List ℚ →
    List ℚ → List ℚ → List ℚ → List ℚ → List ℚ → List Vec3 × ℚ × ℚ
  extract_fragment_data :
    List Vec3 → List ℚ → ℚ → List ℚ × List Vec3 × Center × Nat × Nat
  getCoefficients_for_fragmented_ellipse :
    Nat → List ℚ → List Vec3 → Center → List ℚ × List ℚ
  form_vertices_of_fragment :
    List ℚ → List ℚ → List Vec3 → Center → List ℚ → List ℚ → Nat →
    List Vec3 × ℚ × ℚ
  composite_auto_mode :
    List (List Vec3) → List (List PyVal) → List Center → List Nat →
    List ℚ → ℚ → ℚ → List (List Vec3) × ℚ × ℚ

/-- The data attributes of the Canvas widget.  Default values are the ones
set by Canvas.__init__ (lines 541-560) and by the reset at the top of
Canvas.readFile (lines 602-616) for the fields __init__ leaves unset. -/
structure CanvasState : Type where
  vertices : List Vec3 := []
  angles : List ℚ := []
  d : List ℚ := []
  d_bar : List ℚ := []
  Ea : ℚ := 0
  Em : ℚ := 0
  numPt : Nat := 0
  center : Center := (0, 0)
  fragment_range : ℚ := 0
  start_index : Nat := 0
  end_index : Nat := 0
  a : List ℚ := []
  b : List ℚ := []
  generalisedEllipseVertices : List Vec3 := []
  cut_points : List Nat := []
  tangents : List Vec3 := []
  normals : List Vec3 := []
  curvatures : List ℚ := []
  a_first_half : List ℚ := []
  b_first_half : List ℚ := []
  vertices_first_half : List Vec3 := []
  angles_first_half : List ℚ := []
  vertices_second_half : List Vec3 := []
  angles_second_half : List ℚ := []
  center_first_half : Center := (0, 0)
  center_second_half : Center := (0, 0)
  vertices_matrix : List (List Vec3) := []
  angles_matrix : List (List PyVal) := []
  segment_center_list : List Center := []
  manualJ : Nat := 10
  autoJ_value : Nat := 0
  manualJ_mode : Bool := false
  autoJ_mode : Bool := false
  single_piece_mode : Bool := true
  symmetry_mode : Bool := false
  fragment_mode : Bool := false
  composite_mode : Bool := false
deriving DecidableEq, Repr

instance : Inhabited CanvasState := ⟨{}⟩

namespace Canvas

/-- Class attribute Ea_criteria = 0.01 (line 538). -/
def Ea_criteria : ℚ := 0.01

/-- Class attribute Em_criteria = 0.025 (line 539). -/
def Em_criteria : ℚ := 0.025

end Canvas

/-- The newline character written by each '\n' in save_dataFn. -/
def nlC : Str := ['\n']

/-- The characters written by f.write('range:') (line 401). -/
def rangeTag : Str := "range:".toList

/-- The characters written in single-piece mode by f.write('0-360 \n'),
without the final newline (line 403); note the trailing blank. -/
def singleRangeChunk : Str := "0-360 ".toList

/-- The characters of the center line (line 404,
'center: {} {}'.format(center.x(), center.y())), given the host's str
rendering of numbers. -/
def centerChunk (strFn : ℚ → Str) (st : CanvasState) : Str :=
  "center: ".toList ++ strFn st.center.1 ++ [' '] ++ strFn st.center.2

/-- The characters of the a-coefficients line (lines 405-408): the tag
'a: ' followed by str(i)+' ' for each coefficient in list order. -/
def aChunk (strFn : ℚ → Str) (st : CanvasState) : Str :=
  "a: ".toList ++ (st.a.map (fun i => strFn i ++ [' '])).flatten

/-- The characters of the b-coefficients line (lines 409-412). -/
def bChunk (strFn : ℚ → Str) (st : CanvasState) : Str :=
  "b: ".toList ++ (st.b.map (fun i => strFn i ++ [' '])).flatten

/-- Embedding of the file content written by
CurveFittingWindowUI.save_dataFn (lines 399-417): the concatenation of the
f.write calls, in program order.  The newline after the range tag is only
written in single-piece mode.  The host's str() on floats is the abstract
parameter strFn. -/
def save_dataFn (strFn : ℚ → Str) (st : CanvasState) : Str :=
  rangeTag
    ++ (if st.single_piece_mode = true then singleRangeChunk ++ nlC else [])
    ++ centerChunk strFn st ++ nlC
    ++ aChunk strFn st ++ nlC
    ++ bChunk strFn st ++ nlC

/-- Element i of a token list, raising IndexError past the end (Python
p[i]). -/
def getTok (toks : List Str) (i : Nat) : Except PyErr Str :=
  match toks[i]? with
  | some t => .ok t
  | none => .error .indexError

/-- Conversion of a token by Python's float(), raising ValueError on a
malformed literal. -/
def toFloat (t : Str) : Except PyErr ℚ :=
  match pyFloat t with
  | some q => .ok q
  | none => .error .valueError

/-- Embedding of one loop iteration of Canvas.readFile (lines 619-622):
p = line.split(), then MVector(float(p[0]), float(p[1]), float(p[2])),
with Python's left-to-right evaluation of the error cases. -/
def parseVertexLine (toks : List Str) : Except PyErr Vec3 :=
  match getTok toks 0 with
  | .error e => .error e
  | .ok t0 =>
    match toFloat t0 with
    | .error e => .error e
    | .ok x =>
      match getTok toks 1 with
      | .error e => .error e
      | .ok t1 =>
        match toFloat t1 with
        | .error e => .error e
        | .ok y =>
          match getTok toks 2 with
          | .error e => .error e
          | .ok t2 =>
            match toFloat t2 with
            | .error e => .error e
            | .ok z => .ok (x, y, z)

/-- The vertex-reading loop of Canvas.readFile over the lines of the file,
in order, stopping at the first raised exception. -/
def parseVertices : List Str → Except PyErr (List Vec3)
  | [] => .ok []
  | line :: rest => do
    let v ← parseVertexLine (pySplitWS line)
    let vs ← parseVertices rest
    .ok (v :: vs)

/-- Embedding of the state construction of Canvas.readFile after the vertex
loop (lines 625-648): the full-curve center, d_bar, angle/tangent/normal/
curvature tables, the symmetric two-half decomposition with I = numPt/2
(Python 2 floor division), and the reset of the composite matrices.  The
indexings self.vertices[0] (line 640) and self.angles[0] (line 642) raise
IndexError on an empty list. -/
def loadState (cf : CurveFitting) (vs : List Vec3) :
    Except PyErr CanvasState :=
  let numPt := vs.length
  let center := cf.getCenter vs
  let d_bar := cf.get_d_bar vs center
  let angles := cf.calculateAngle vs center
  let tangents := cf.calculateTangent vs angles
  let normals := cf.calculateNormal tangents
  let curvatures := cf.calculateCurvature tangents angles
  let I := numPt / 2
  match vs, angles with
  | [], _ => .error .indexError
  | _, [] => .error .indexError
  | v0 :: _, ang0 :: _ =>
    .ok { vertices := vs
          angles := angles
          d_bar := d_bar
          numPt := numPt
          center := center
          tangents := tangents
          normals := normals
          curvatures := curvatures
          vertices_first_half := pySlice vs 0 (I + 1)
          angles_first_half := pySlice angles 0 (I + 1)
          vertices_second_half := pySlice vs I numPt ++ [v0]
          angles_second_half := pySlice angles I numPt ++ [ang0]
          center_first_half := cf.getCenter (pySlice vs 0 (I + 1))
          center_second_half := cf.getCenter (pySlice vs I numPt ++ [v0]) }

/-- Embedding of Canvas.readFile (lines 601-648): read the lines of the
file content, parse one vertex per line, then build the derived state. -/
def readFile (cf : CurveFitting) (content : Str) :
    Except PyErr CanvasState := do
  let vs ← parseVertices (pyReadlines content)
  loadState cf vs

/-- Embedding of Canvas.cut_curve (lines 576-598).  For each of the
N = len(cut_points) segments, the vertex row is the slice from cut point i
to cut point (i+1) mod N inclusive, wrapping through index 0 when the start
is not strictly below the end; the angle row is built the same way, except
that in the wrapping branch the code extends the angle slice with
self.vertices[0:...] (line 593), not self.angles, so those rows end in
MVector entries.  Each row's center is getCenter of that row's vertices,
appended in loop order. -/
def cut_curve (cf : CurveFitting) (st : CanvasState) (cut_points : List Nat) :
    CanvasState :=
  let N := cut_points.length
  let rows := (List.range N).map (fun i =>
    let s := cut_points.getD i 0
    let e := cut_points.getD ((i + 1) % N) 0
    if s < e then
      (pySlice st.vertices s (e + 1),
       (pySlice st.angles s (e + 1)).map PyVal.num)
    else
      (pySlice st.vertices s st.numPt ++ pySlice st.vertices 0 (e + 1),
       (pySlice st.angles s st.numPt).map PyVal.num
         ++ (pySlice st.vertices 0 (e + 1)).map PyVal.vec))
  { st with cut_points := cut_points
            vertices_matrix := rows.map Prod.fst
            angles_matrix := rows.map Prod.snd
            segment_center_list := (rows.map Prod.fst).map cf.getCenter }

/-- Embedding of Canvas.set_fragment_range (lines 656-658). -/
def set_fragment_range (st : CanvasState) (value : ℚ) : CanvasState :=
  { st with fragment_range := value }

/-- Result record of the single-piece branch of
Canvas.draw_generalisedEllipse (lines 701-719). -/
structure SingleRun : Type where
  J : Nat
  a : List ℚ
  b : List ℚ
  verts : List Vec3
  Ea : ℚ
  Em : ℚ
deriving DecidableEq, Repr

/-- Embedding of the single-piece branch of draw_generalisedEllipse:
J is the manual spin-box value in manual mode, findJ at the class tolerance
attributes in auto mode; the fit runs only when one of the two modes is
active. -/
def draw_single_piece (cf : CurveFitting) (st : CanvasState) :
    Option SingleRun :=
  let J := if st.manualJ_mode = true then st.manualJ
           else if st.autoJ_mode = true then
             cf.findJ st.vertices st.angles st.d_bar st.center
               Canvas.Ea_criteria Canvas.Em_criteria
           else 0
  if st.manualJ_mode = true ∨ st.autoJ_mode = true then
    let ab := cf.getCoefficients J st.vertices st.center st.angles
    let r := cf.formGeneralizedEllipse ab.1 ab.2 st.vertices st.center
      st.angles st.d_bar
    some { J := J, a := ab.1, b := ab.2,
           verts := r.1, Ea := r.2.1, Em := r.2.2 }
  else none

/-- Result record of the symmetry branch of draw_generalisedEllipse
(lines 721-761). -/
structure SymmetryRun : Type where
  J : Nat
  a_first_half : List ℚ
  b_first_half : List ℚ
  a_second_half : List ℚ
  b_second_half : List ℚ
  verts : List Vec3
  Ea : ℚ
  Em : ℚ
deriving DecidableEq, Repr

/-- Embedding of the symmetry branch of draw_generalisedEllipse: the
first-half coefficients come from the first-half data, the second-half
coefficients from
getCoefficients_for_second_half_of_symmetrical_ellipse(a_first_half,
b_first_half) alone (lines 734-735), and both halves are assembled by
form_vertices_of_segmented_ellipse. -/
def draw_symmetry (cf : CurveFitting) (st : CanvasState) :
    Option SymmetryRun :=
  let J := if st.manualJ_mode = true then st.manualJ
           else if st.autoJ_mode = true then
             cf.findJ st.vertices_first_half st.angles_first_half st.d_bar
               st.center_first_half Canvas.Ea_criteria Canvas.Em_criteria
           else 0
  if st.manualJ_mode = true ∨ st.autoJ_mode = true then
    let fh := cf.getCoefficients_for_first_generalized_elliptic_segment
      st.vertices_first_half st.angles_first_half st.center_first_half J
    let sh := cf.getCoefficients_for_second_half_of_symmetrical_ellipse
      fh.1 fh.2
    let r := cf.form_vertices_of_segmented_ellipse
      st.vertices_first_half st.vertices_second_half
      st.center_first_half st.center_second_half
      st.angles_first_half st.angles_second_half
      st.d_bar fh.1 fh.2 sh.1 sh.2
    some { J := J, a_first_half := fh.1, b_first_half := fh.2,
           a_second_half := sh.1, b_second_half := sh.2,
           verts := r.1, Ea := r.2.1, Em := r.2.2 }
  else none

/-- The argument tuple handed to curve_fitting.form_vertices_of_fragment by
the fragment branch of draw_generalisedEllipse (line 769). -/
structure FragmentCall : Type where
  a : List ℚ
  b : List ℚ
  vertices : List Vec3
  center : Center
  angles : List ℚ
  d_bar : List ℚ
  start_index : Nat
deriving DecidableEq, Repr

/-- Embedding of the fragment branch of draw_generalisedEllipse
(lines 764-771), up to the form_vertices_of_fragment call: the fragment
data is extracted from the full tables at the current fragment_range, the
fragment coefficients are fitted on the fragment data, and the baseline
argument passed on is self.d_bar.  The branch only runs in manual-J mode.
-/
def draw_fragment_call (cf : CurveFitting) (st : CanvasState) :
    Option FragmentCall :=
  if st.manualJ_mode = true then
    let J := st.manualJ
    let ex := cf.extract_fragment_data st.vertices st.angles st.fragment_range
    let angles := ex.1
    let vertices := ex.2.1
    let center := ex.2.2.1
    let start_index := ex.2.2.2.1
    let ab := cf.getCoefficients_for_fragmented_ellipse J angles vertices
      center
    some { a := ab.1, b := ab.2, vertices := vertices, center := center,
           angles := angles, d_bar := st.d_bar, start_index := start_index }
  else none

/-- The fragment branch through the external fit call. -/
def draw_fragment (cf : CurveFitting) (st : CanvasState) :
    Option (List Vec3 × ℚ × ℚ) :=
  (draw_fragment_call cf st).map (fun c =>
    cf.form_vertices_of_fragment c.a c.b c.vertices c.center c.angles
      c.d_bar c.start_index)

/-- Embedding of the composite branch of draw_generalisedEllipse
(lines 776-794): in auto-J mode the whole segment family is handed to
composite_auto_mode together with the class tolerance attributes. -/
def draw_composite (cf : CurveFitting) (st : CanvasState) :
    Option (List (List Vec3) × ℚ × ℚ) :=
  if st.autoJ_mode = true then
    some (cf.composite_auto_mode st.vertices_matrix st.angles_matrix
      st.segment_center_list st.cut_points st.d_bar
      Canvas.Ea_criteria Canvas.Em_criteria)
  else none

/-- A trivial instance of the abstract curve_fitting interface, used to
instantiate universally quantified theorems at concrete inputs. -/
def trivCF : CurveFitting where
  getCenter := fun _ => (0, 0)
  get_d_bar := fun vs _ => vs.map (fun _ => 1)
  calculateAngle := fun vs _ => vs.map (fun _ => 0)
  calculateTangent := fun _ _ => []
  calculateNormal := fun _ => []
  calculateCurvature := fun _ _ => []
  findJ := fun _ _ _ _ _ _ => 1
  getCoefficients := fun _ _ _ _ => ([], [])
  formGeneralizedEllipse := fun _ _ _ _ _ _ => ([], 0, 0)
  getCoefficients_for_first_generalized_elliptic_segment :=
    fun _ _ _ _ => ([], [])
  getCoefficients_for_second_half_of_symmetrical_ellipse :=
    fun a b => (b, a)
  form_vertices_of_segmented_ellipse :=
    fun _ _ _ _ _ _ _ _ _ _ _ => ([], 0, 0)
  extract_fragment_data := fun vs as _ => (as, vs, (0, 0), 0, 0)
  getCoefficients_for_fragmented_ellipse := fun _ _ _ _ => ([], [])
  form_vertices_of_fragment := fun _ _ _ _ _ _ _ => ([], 0, 0)
  composite_auto_mode := fun _ _ _ _ _ _ _ => ([], 0, 0)

end CurveFittingUI

section StrLemmas

theorem splitOnP_cons (p : Char → Bool) (x : Char) (xs : Str) :
    splitOnP p (x :: xs) =
      if p x then [] :: splitOnP p xs
      else (x :: (splitOnP p xs).headD []) :: (splitOnP p xs).tail := rfl

theorem splitOnP_ne_nil (p : Char → Bool) (s : Str) : splitOnP p s ≠ [] := by
  cases s with
  | nil => simp [splitOnP]
  | cons x xs =>
    rw [splitOnP_cons]
    split <;> simp

theorem cons_headD_tail {α : Type} (l : List α) (d : α) (h : l ≠ []) :
    l.headD d :: l.tail = l := by
  cases l with
  | nil => exact absurd rfl h
  | cons a t => rfl

theorem splitOnP_append_head (p : Char → Bool) (xs ys : Str)
    (h : ∀ x ∈ xs, p x = false) :
    splitOnP p (xs ++ ys) =
      (xs ++ (splitOnP p ys).headD []) :: (splitOnP p ys).tail := by
  induction xs with
  | nil =>
    simpa using (cons_headD_tail (splitOnP p ys) [] (splitOnP_ne_nil p ys)).symm
  | cons a xs ih =>
    have ha : p a = false := h a (List.mem_cons_self a xs)
    have h' : ∀ x ∈ xs, p x = false := fun x hx => h x (List.mem_cons_of_mem a hx)
    rw [List.cons_append, splitOnP_cons, ha, ih h']
    simp

theorem splitOnP_append_sep (p : Char → Bool) (xs ys : Str) (c : Char)
    (h : ∀ x ∈ xs, p x = false) (hc : p c = true) :
    splitOnP p (xs ++ c :: ys) = xs :: splitOnP p ys := by
  rw [splitOnP_append_head p xs (c :: ys) h, splitOnP_cons, hc]
  simp

theorem pyReadlines_cons (l rest : Str) (h : '\n' ∉ l) :
    pyReadlines (l ++ '\n' :: rest) = l :: pyReadlines rest := by
  have hl : ∀ x ∈ l, (fun c => c = '\n' : Char → Bool) x = false := by
    intro x hx
    simp only [decide_eq_false_iff_not]
    intro hx'
    exact h (hx' ▸ hx)
  have hsep := splitOnP_append_sep (fun c => c = '\n') l rest '\n' hl (by simp)
  unfold pyReadlines
  rw [hsep]
  obtain ⟨h2, t2, ht⟩ :
      ∃ h2 t2, splitOnP (fun c => c = '\n') rest = h2 :: t2 := by
    cases hs : splitOnP (fun c => c = '\n') rest with
    | nil => exact absurd hs (splitOnP_ne_nil _ _)
    | cons h2 t2 => exact ⟨h2, t2, rfl⟩
  rw [ht]
  simp only [List.getLast?_cons_cons]
  split
  · rw [List.dropLast_cons₂]
  · rfl

/-- The character stream of a list of newline-free lines, each terminated
by a newline. -/
def joinNL (ls : List Str) : Str :=
  (ls.map (fun l => l ++ ['\n'])).flatten

theorem pyReadlines_nil : pyReadlines [] = [] := rfl

theorem pyReadlines_joinNL (ls : List Str) (h : ∀ l ∈ ls, '\n' ∉ l) :
    pyReadlines (joinNL ls) = ls := by
  induction ls with
  | nil => rfl
  | cons l ls ih =>
    have : joinNL (l :: ls) = l ++ '\n' :: joinNL ls := by
      simp [joinNL]
    rw [this, pyReadlines_cons l _ (h l (List.mem_cons_self l ls)),
      ih (fun x hx => h x (List.mem_cons_of_mem l hx))]

theorem pyReadlines_head_of_ne (s : Str)
    (h : (splitOnP (fun c => c = '\n') s).headD [] ≠ []) :
    ∃ t, pyReadlines s =
      ((splitOnP (fun c => c = '\n') s).headD []) :: t := by
  unfold pyReadlines
  obtain ⟨h1, t1, ht⟩ :
      ∃ h1 t1, splitOnP (fun c => c = '\n') s = h1 :: t1 := by
    cases hs : splitOnP (fun c => c = '\n') s with
    | nil => exact absurd hs (splitOnP_ne_nil _ _)
    | cons h1 t1 => exact ⟨h1, t1, rfl⟩
  rw [ht] at h ⊢
  simp only [List.headD_cons] at h ⊢
  cases t1 with
  | nil =>
    simp only [List.getLast?_singleton]
    have : ¬ (some h1 = some ([] : Str)) := by
      intro hc
      exact h (Option.some.inj hc)
    rw [if_neg this]
    exact ⟨[], rfl⟩
  | cons h2 t2 =>
    simp only [List.getLast?_cons_cons]
    split
    · rw [List.dropLast_cons₂]
      exact ⟨_, rfl⟩
    · exact ⟨_, rfl⟩

theorem pySplitWS_sep (xs ys : Str) (hne : xs ≠ [])
    (h : ∀ x ∈ xs, pySpace x = false) :
    pySplitWS (xs ++ ' ' :: ys) = xs :: pySplitWS ys := by
  unfold pySplitWS
  rw [splitOnP_append_sep pySpace xs ys ' ' h (by decide)]
  simp [hne]

theorem parseVertices_head_error (l : Str) (ls : List Str) (e : PyErr)
    (h : parseVertexLine (pySplitWS l) = .error e) :
    parseVertices (l :: ls) = .error e := by
  simp only [parseVertices, h]
  rfl

end StrLemmas

section SegmentLemmas

/-- Number of vertices on the inclusive cyclic span from index s to index
e of a closed curve with N vertices, wrapping through 0 when s is not
strictly below e. -/
def arcLen (N s e : Nat) : Nat :=
  if s < e then e + 1 - s else N - s + (e + 1)

/-- Index t lies on the inclusive cyclic span from s to e (wrapping through
0 when s is not strictly below e; indices are assumed below N). -/
def onArc (s e t : Nat) : Prop :=
  if s < e then s ≤ t ∧ t ≤ e else (s ≤ t ∨ t ≤ e)

instance (s e t : Nat) : Decidable (onArc s e t) :=
  inferInstanceAs (Decidable (if s < e then s ≤ t ∧ t ≤ e else (s ≤ t ∨ t ≤ e)))

/-- The row a single cut_curve loop iteration builds from a table xs:
the direct slice for s < e, the wrapped pair of slices otherwise. -/
def segRow (xs : List α) (N s e : Nat) : List α :=
  if s < e then pySlice xs s (e + 1)
  else pySlice xs s N ++ pySlice xs 0 (e + 1)

theorem getD_map_range {α : Type} (f : Nat → α) (M i : Nat) (h : i < M)
    (d : α) : (((List.range M).map f)).getD i d = f i := by
  have hlen : i < ((List.range M).map f).length := by simpa using h
  rw [List.getD_eq_getElem _ _ hlen]
  simp

theorem segRow_length (xs : List α) (N s e : Nat) (hN : N = xs.length)
    (hs : s < N) (he : e < N) :
    (segRow xs N s e).length = arcLen N s e := by
  unfold segRow arcLen
  split
  · simp [pySlice, hN.symm ▸ he]
    omega
  · simp [pySlice]
    omega

theorem segRow_getD (xs : List α) (N s e : Nat) (hN : N = xs.length)
    (hs : s < N) (he : e < N) (d : α) :
    ∀ k, k < arcLen N s e →
      (segRow xs N s e).getD k d = xs.getD ((s + k) % N) d := by
  subst hN
  intro k hk
  have hlen := segRow_length xs xs.length s e rfl hs he
  have hkl : k < (segRow xs xs.length s e).length := hlen ▸ hk
  unfold segRow at hkl ⊢
  unfold arcLen at hk
  by_cases hse : s < e
  · rw [if_pos hse] at hkl ⊢
    rw [if_pos hse] at hk
    have hsk : s + k < xs.length := by omega
    have hmod : (s + k) % xs.length = s + k := Nat.mod_eq_of_lt hsk
    rw [hmod]
    unfold pySlice at hkl ⊢
    have hb : s + k < (xs.take (e + 1)).length := by
      simp [List.length_take]
      omega
    rw [List.getD_eq_getElem _ _ hkl, List.getD_eq_getElem _ _ hsk,
      List.getElem_drop, List.getElem_take]
  · rw [if_neg hse] at hkl ⊢
    rw [if_neg hse] at hk
    unfold pySlice at hkl ⊢
    rw [List.take_length, List.drop_zero] at hkl ⊢
    by_cases hk1 : k < xs.length - s
    · have hmod : (s + k) % xs.length = s + k := Nat.mod_eq_of_lt (by omega)
      rw [hmod]
      have hb1 : k < (xs.drop s).length := by
        simp [List.length_drop]
        omega
      have hb2 : s + k < xs.length := by omega
      rw [List.getD_eq_getElem _ _ hkl, List.getD_eq_getElem _ _ hb2,
        List.getElem_append_left hb1, List.getElem_drop]
    · have hge : xs.length ≤ s + k := by omega
      have hlt2 : s + k - xs.length < xs.length := by omega
      have hmod : (s + k) % xs.length = s + k - xs.length := by
        rw [Nat.mod_eq_sub_mod hge, Nat.mod_eq_of_lt hlt2]
      rw [hmod]
      have hb1 : (xs.drop s).length ≤ k := by
        simp [List.length_drop]
        omega
      have hb2 : s + k - xs.length < xs.length := by omega
      rw [List.getD_eq_getElem _ _ hkl, List.getD_eq_getElem _ _ hb2,
        List.getElem_append_right hb1, List.getElem_take]
      congr 1
      simp [List.length_drop]
      omega

theorem exists_k_iff_onArc (N s e t : Nat) (hs : s < N) (he : e < N)
    (ht : t < N) :
    (∃ k, k < arcLen N s e ∧ (s + k) % N = t) ↔ onArc s e t := by
  unfold arcLen onArc
  by_cases hse : s < e
  · rw [if_pos hse, if_pos hse]
    constructor
    · rintro ⟨k, hk, hmod⟩
      rw [Nat.mod_eq_of_lt (by omega)] at hmod
      omega
    · rintro ⟨h1, h2⟩
      refine ⟨t - s, by omega, ?_⟩
      have : s + (t - s) = t := by omega
      rw [this, Nat.mod_eq_of_lt ht]
  · rw [if_neg hse, if_neg hse]
    constructor
    · rintro ⟨k, hk, hmod⟩
      by_cases hk2 : s + k < N
      · rw [Nat.mod_eq_of_lt hk2] at hmod
        omega
      · have hge : N ≤ s + k := by omega
        have hlt2 : s + k - N < N := by omega
        rw [Nat.mod_eq_sub_mod hge, Nat.mod_eq_of_lt hlt2] at hmod
        omega
    · intro h
      rcases h with h1 | h2
      · refine ⟨t - s, by omega, ?_⟩
        have : s + (t - s) = t := by omega
        rw [this, Nat.mod_eq_of_lt ht]
      · refine ⟨N - s + t, by omega, ?_⟩
        have : s + (N - s + t) = N + t := by omega
        rw [this, Nat.add_mod_left, Nat.mod_eq_of_lt ht]

theorem segRow_mem (xs : List α) (N s e t : Nat) (hN : N = xs.length)
    (hs : s < N) (he : e < N) (ht : t < N) (hnd : xs.Nodup) (d : α) :
    xs.getD t d ∈ segRow xs N s e ↔ onArc s e t := by
  rw [← exists_k_iff_onArc N s e t hs he ht]
  constructor
  · intro hmem
    obtain ⟨k, hk, hkeq⟩ := List.mem_iff_getElem.mp hmem
    have hlen := segRow_length xs N s e hN hs he
    have hk2 : k < arcLen N s e := hlen ▸ hk
    have := segRow_getD xs N s e hN hs he d k hk2
    rw [List.getD_eq_getElem _ _ hk, hkeq] at this
    have hm : (s + k) % N < N := Nat.mod_lt _ (by omega)
    have hmx : (s + k) % N < xs.length := by omega
    have htx : t < xs.length := by omega
    rw [List.getD_eq_getElem _ _ hmx, List.getD_eq_getElem _ _ htx] at this
    have := (hnd.getElem_inj_iff).mp this.symm
    exact ⟨k, hk2, this⟩
  · rintro ⟨k, hk, hmod⟩
    have := segRow_getD xs N s e hN hs he d k hk
    rw [hmod] at this
    rw [← this]
    have hlen := segRow_length xs N s e hN hs he
    have hkl : k < (segRow xs N s e).length := hlen ▸ hk
    rw [List.getD_eq_getElem _ _ hkl]
    exact List.getElem_mem hkl

theorem exists_boundary (f : Nat → Nat) (t m : Nat) (h0 : f 0 ≤ t)
    (hm : t < f m) : ∃ i, i < m ∧ f i ≤ t ∧ t < f (i + 1) := by
  induction m with
  | zero => omega
  | succ m ih =>
    by_cases h : f m ≤ t
    · exact ⟨m, by omega, h, hm⟩
    · obtain ⟨i, hi, h1, h2⟩ := ih (by omega)
      exact ⟨i, by omega, h1, h2⟩

end SegmentLemmas

section CutPointLemmas

/-- Cut point i of the list, as the code reads it (cut_points[i]). -/
def cAt (cps : List Nat) (i : Nat) : Nat := cps.getD i 0

theorem cAt_lt_cAt (cps : List Nat) (hsort : cps.Pairwise (· < ·))
    (a b : Nat) (hab : a < b) (hb : b < cps.length) :
    cAt cps a < cAt cps b := by
  have ha : a < cps.length := by omega
  unfold cAt
  rw [List.getD_eq_getElem _ _ ha, List.getD_eq_getElem _ _ hb]
  exact List.pairwise_iff_getElem.mp hsort a b ha hb hab

theorem cAt_lt_bound (cps : List Nat) (N : Nat)
    (hlt : ∀ c ∈ cps, c < N) (i : Nat) (hi : i < cps.length) :
    cAt cps i < N := by
  unfold cAt
  rw [List.getD_eq_getElem _ _ hi]
  exact hlt _ (List.getElem_mem hi)

theorem onArc_cover (cps : List Nat) (N : Nat)
    (hsort : cps.Pairwise (· < ·)) (hlt : ∀ c ∈ cps, c < N)
    (hM : 1 ≤ cps.length) (t : Nat) (ht : t < N) :
    ∃ i, i < cps.length ∧
      onArc (cAt cps i) (cAt cps ((i + 1) % cps.length)) t := by
  set M := cps.length with hMdef
  by_cases h0 : cAt cps 0 ≤ t ∧ t < cAt cps (M - 1)
  · obtain ⟨i, hi, h1, h2⟩ := exists_boundary (cAt cps) t (M - 1) h0.1 h0.2
    refine ⟨i, by omega, ?_⟩
    have hmod : (i + 1) % M = i + 1 := Nat.mod_eq_of_lt (by omega)
    rw [hmod]
    have hslt : cAt cps i < cAt cps (i + 1) :=
      cAt_lt_cAt cps hsort i (i + 1) (by omega) (by omega)
    unfold onArc
    rw [if_pos hslt]
    omega
  · refine ⟨M - 1, by omega, ?_⟩
    have hmod : (M - 1 + 1) % M = 0 := by
      have : M - 1 + 1 = M := by omega
      rw [this, Nat.mod_self]
    rw [hmod]
    by_cases hM1 : M = 1
    · have h0 : M - 1 = 0 := by omega
      rw [h0]
      unfold onArc
      rw [if_neg (lt_irrefl _)]
      omega
    · have hlt01 : cAt cps 0 < cAt cps (M - 1) :=
        cAt_lt_cAt cps hsort 0 (M - 1) (by omega) (by omega)
      unfold onArc
      rw [if_neg (by omega)]
      omega

theorem onArc_consecutive (cps : List Nat) (N : Nat)
    (hsort : cps.Pairwise (· < ·)) (hlt : ∀ c ∈ cps, c < N)
    (hM : 2 ≤ cps.length) (i : Nat) (hi : i < cps.length)
    (t : Nat) (ht : t < N) :
    (onArc (cAt cps i) (cAt cps ((i + 1) % cps.length)) t ∧
      onArc (cAt cps ((i + 1) % cps.length))
        (cAt cps (((i + 1) % cps.length + 1) % cps.length)) t) ↔
    (t = cAt cps ((i + 1) % cps.length) ∨
      (cps.length = 2 ∧ t = cAt cps i)) := by
  set M := cps.length with hMdef
  by_cases hC : i = M - 1
  · -- last segment: its arc wraps from the last cut point to the first,
    -- the next segment is the first one
    subst hC
    have hm1 : (M - 1 + 1) % M = 0 := by
      have : M - 1 + 1 = M := by omega
      rw [this, Nat.mod_self]
    rw [hm1]
    have hm2 : (0 + 1) % M = 1 := Nat.mod_eq_of_lt (by omega)
    rw [hm2]
    have h01 : cAt cps 0 < cAt cps 1 :=
      cAt_lt_cAt cps hsort 0 1 (by omega) (by omega)
    have h0l : cAt cps 0 < cAt cps (M - 1) :=
      cAt_lt_cAt cps hsort 0 (M - 1) (by omega) (by omega)
    have h1l : M = 2 → cAt cps 1 = cAt cps (M - 1) := by
      intro h2
      rw [h2]
    have h1l3 : 3 ≤ M → cAt cps 1 < cAt cps (M - 1) := by
      intro h3
      exact cAt_lt_cAt cps hsort 1 (M - 1) (by omega) (by omega)
    unfold onArc
    rw [if_neg (by omega), if_pos h01]
    by_cases h2 : M = 2
    · have := h1l h2
      constructor
      · rintro ⟨ha, hb⟩
        rcases ha with ha | ha <;> omega
      · intro h
        rcases h with h | ⟨hh, h⟩ <;> omega
    · have := h1l3 (by omega)
      constructor
      · rintro ⟨ha, hb⟩
        rcases ha with ha | ha <;> omega
      · intro h
        rcases h with h | ⟨hh, h⟩ <;> omega
  · by_cases hB : i = M - 2
    · -- second-to-last segment: the following segment is the wrapping one
      subst hB
      have hm1 : (M - 2 + 1) % M = M - 1 := by
        have h1 : M - 2 + 1 = M - 1 := by omega
        rw [h1]
        exact Nat.mod_eq_of_lt (by omega)
      rw [hm1]
      have hm2 : (M - 1 + 1) % M = 0 := by
        have h1 : M - 1 + 1 = M := by omega
        rw [h1, Nat.mod_self]
      rw [hm2]
      have hbl : cAt cps (M - 2) < cAt cps (M - 1) :=
        cAt_lt_cAt cps hsort (M - 2) (M - 1) (by omega) (by omega)
      have h0b2 : M = 2 → cAt cps 0 = cAt cps (M - 2) := by
        intro h2
        rw [h2]
      have h0b3 : 3 ≤ M → cAt cps 0 < cAt cps (M - 2) := by
        intro h3
        exact cAt_lt_cAt cps hsort 0 (M - 2) (by omega) (by omega)
      unfold onArc
      rw [if_pos hbl, if_neg (by omega)]
      by_cases h2 : M = 2
      · have := h0b2 h2
        constructor
        · rintro ⟨⟨ha1, ha2⟩, hb⟩
          rcases hb with hb | hb <;> omega
        · intro h
          rcases h with h | ⟨hh, h⟩ <;> omega
      · have := h0b3 (by omega)
        constructor
        · rintro ⟨⟨ha1, ha2⟩, hb⟩
          rcases hb with hb | hb <;> omega
        · intro h
          rcases h with h | ⟨hh, h⟩ <;> omega
    · -- a middle segment: both arcs are plain sorted intervals
      have hiM : i + 2 < M := by omega
      have hm1 : (i + 1) % M = i + 1 := Nat.mod_eq_of_lt (by omega)
      rw [hm1]
      have hm2 : (i + 1 + 1) % M = i + 2 := Nat.mod_eq_of_lt (by omega)
      rw [hm2]
      have h12 : cAt cps i < cAt cps (i + 1) :=
        cAt_lt_cAt cps hsort i (i + 1) (by omega) (by omega)
      have h23 : cAt cps (i + 1) < cAt cps (i + 2) :=
        cAt_lt_cAt cps hsort (i + 1) (i + 2) (by omega) (by omega)
      unfold onArc
      rw [if_pos h12, if_pos h23]
      constructor
      · rintro ⟨⟨ha1, ha2⟩, hb1, hb2⟩
        omega
      · intro h
        rcases h with h | ⟨hh, h⟩ <;> omega

end CutPointLemmas

section ClaimC1

/-- Name-lookup environment in which the mesh name matches two DAG paths
and the bone name matches one: used to exhibit the missing exactly-one
check on the named path. -/
def byNameTwo : String → List Nat :=
  fun s => if s = "M" then [3, 4] else if s = "B" then [7] else []

/-- Claim C1, counterexample to the claim as stated: on the named path
(both -mmn and -mbn given) the mesh name resolves to TWO matches, yet
parseArguments succeeds, taking the first match; the claimed exactly-one
requirement is not enforced there. -/
theorem parseArguments_namedPath_counterexample :
    exceptOk (parseArguments none (some "M") (some "B") [] byNameTwo) = true
    ∧ (byNameTwo "M").length = 2
    ∧ parseArguments none (some "M") (some "B") [] byNameTwo
        = .ok { u_parameter := 0, mesh_name := "M", bone_name := "B",
                mesh_dagPath := 3, bone_dagPath := 7 } := by
  refine ⟨by decide, by decide, by rfl⟩

/-- Claim C1 (amended): parseArguments resolves the mesh and the bone
either from the explicit -mmn and -mbn flag names or, when at least one of the
two names is absent (empty), from the active selection; on the selection
path it raises an error if and only if the selection does not contain
exactly one mesh and exactly one joint (noMesh on zero meshes, multiMesh
on several, then noBone and multiBone for joints); on the named path it
raises only when a name lookup returns no match, and otherwise resolves
each reference to the FIRST match of its name, with no exactly-one
requirement. -/
theorem parseArguments_resolution (mu : Option ℚ) (mmn mbn : Option String)
    (sel : List SelItem) (byName : String → List Nat) :
    ((mmn.getD "" = "" ∨ mbn.getD "" = "") →
      ((exceptOk (parseArguments mu mmn mbn sel byName) = false ↔
          ¬((selMeshes sel).length = 1 ∧ (selJoints sel).length = 1))
        ∧ (parseArguments mu mmn mbn sel byName = .error .noMesh ↔
            (selMeshes sel).length = 0)
        ∧ (parseArguments mu mmn mbn sel byName = .error .multiMesh ↔
            2 ≤ (selMeshes sel).length)
        ∧ (parseArguments mu mmn mbn sel byName = .error .noBone ↔
            ((selMeshes sel).length = 1 ∧ (selJoints sel).length = 0))
        ∧ (parseArguments mu mmn mbn sel byName = .error .multiBone ↔
            ((selMeshes sel).length = 1 ∧ 2 ≤ (selJoints sel).length))))
    ∧ (¬(mmn.getD "" = "" ∨ mbn.getD "" = "") →
      ((exceptOk (parseArguments mu mmn mbn sel byName) = false ↔
          (byName (mmn.getD "") = [] ∨ byName (mbn.getD "") = []))
        ∧ ∀ m mt b bt, byName (mmn.getD "") = m :: mt →
            byName (mbn.getD "") = b :: bt →
            parseArguments mu mmn mbn sel byName
              = .ok { u_parameter := mu.getD 0, mesh_name := mmn.getD "",
                      bone_name := mbn.getD "",
                      mesh_dagPath := m, bone_dagPath := b })) := by
  constructor
  · intro h
    by_cases h1 : (selMeshes sel).length = 0
    · have hres : parseArguments mu mmn mbn sel byName = .error .noMesh := by
        unfold parseArguments
        rw [if_pos h]
        dsimp only
        rw [if_pos h1]
      rw [hres]
      set m := (selMeshes sel).length with hm
      set j := (selJoints sel).length with hj
      refine ⟨?_, ?_, ?_, ?_, ?_⟩ <;> simp [exceptOk] <;> omega
    · by_cases h2 : 1 < (selMeshes sel).length
      · have hres : parseArguments mu mmn mbn sel byName
            = .error .multiMesh := by
          unfold parseArguments
          rw [if_pos h]
          dsimp only
          rw [if_neg h1, if_pos h2]
        rw [hres]
        set m := (selMeshes sel).length with hm
        set j := (selJoints sel).length with hj
        refine ⟨?_, ?_, ?_, ?_, ?_⟩ <;> simp [exceptOk] <;> omega
      · by_cases h3 : (selJoints sel).length = 0
        · have hres : parseArguments mu mmn mbn sel byName
              = .error .noBone := by
            unfold parseArguments
            rw [if_pos h]
            dsimp only
            rw [if_neg h1, if_neg h2, if_pos h3]
          rw [hres]
          set m := (selMeshes sel).length with hm
          set j := (selJoints sel).length with hj
          refine ⟨?_, ?_, ?_, ?_, ?_⟩ <;> simp [exceptOk] <;> omega
        · by_cases h4 : 1 < (selJoints sel).length
          · have hres : parseArguments mu mmn mbn sel byName
                = .error .multiBone := by
              unfold parseArguments
              rw [if_pos h]
              dsimp only
              rw [if_neg h1, if_neg h2, if_neg h3, if_pos h4]
            rw [hres]
            set m := (selMeshes sel).length with hm
            set j := (selJoints sel).length with hj
            refine ⟨?_, ?_, ?_, ?_, ?_⟩ <;> simp [exceptOk] <;> omega
          · have hres : parseArguments mu mmn mbn sel byName
                = .ok { u_parameter := mu.getD 0, mesh_name := mmn.getD "",
                        bone_name := mbn.getD "",
                        mesh_dagPath := (selMeshes sel).getLastD 0,
                        bone_dagPath := (selJoints sel).getLastD 0 } := by
              unfold parseArguments
              rw [if_pos h]
              dsimp only
              rw [if_neg h1, if_neg h2, if_neg h3, if_neg h4]
            rw [hres]
            set m := (selMeshes sel).length with hm
            set j := (selJoints sel).length with hj
            refine ⟨?_, ?_, ?_, ?_, ?_⟩ <;> simp [exceptOk] <;> omega
  · intro h
    unfold parseArguments
    rw [if_neg h]
    constructor
    · cases hm : byName (mmn.getD "") with
      | nil => simp [exceptOk]
      | cons m mt =>
        cases hb : byName (mbn.getD "") with
        | nil => simp [exceptOk]
        | cons b bt => simp [exceptOk]
    · intro m mt b bt hm hb
      rw [hm, hb]

/-- Witness for the C1 theorem: a selection with exactly one mesh and one
joint parses successfully on the selection path, and the error cases are
all characterised as stated. -/
theorem parseArguments_resolution_witness :
    ((none : Option String).getD "" = "" ∨ (none : Option String).getD "" = "")
    ∧ ((exceptOk (parseArguments none none none
          [SelItem.mesh 3, SelItem.other, SelItem.joint 7] byNameTwo) = false ↔
        ¬((selMeshes [SelItem.mesh 3, SelItem.other, SelItem.joint 7]).length = 1
          ∧ (selJoints [SelItem.mesh 3, SelItem.other, SelItem.joint 7]).length = 1))
      ∧ (parseArguments none none none
            [SelItem.mesh 3, SelItem.other, SelItem.joint 7] byNameTwo = .error .noMesh ↔
          (selMeshes [SelItem.mesh 3, SelItem.other, SelItem.joint 7]).length = 0)
      ∧ (parseArguments none none none
            [SelItem.mesh 3, SelItem.other, SelItem.joint 7] byNameTwo = .error .multiMesh ↔
          2 ≤ (selMeshes [SelItem.mesh 3, SelItem.other, SelItem.joint 7]).length)
      ∧ (parseArguments none none none
            [SelItem.mesh 3, SelItem.other, SelItem.joint 7] byNameTwo = .error .noBone ↔
          ((selMeshes [SelItem.mesh 3, SelItem.other, SelItem.joint 7]).length = 1
            ∧ (selJoints [SelItem.mesh 3, SelItem.other, SelItem.joint 7]).length = 0))
      ∧ (parseArguments none none none
            [SelItem.mesh 3, SelItem.other, SelItem.joint 7] byNameTwo = .error .multiBone ↔
          ((selMeshes [SelItem.mesh 3, SelItem.other, SelItem.joint 7]).length = 1
            ∧ 2 ≤ (selJoints [SelItem.mesh 3, SelItem.other, SelItem.joint 7]).length))) :=
  ⟨Or.inl rfl,
    (parseArguments_resolution none none none
      [SelItem.mesh 3, SelItem.other, SelItem.joint 7] byNameTwo).1 (Or.inl rfl)⟩

end ClaimC1

section ClaimC9

/-- The identity map is a (degenerate) rescaling. -/
theorem isRescaling_id : IsRescaling (fun v => v) :=
  fun v => ⟨1, by norm_num⟩

/-- Claim C9, counterexample to the orthogonality part as stated: at
p0 = (0,3,0), p1 = (0,0,0), p2 = (1,1,0) the precondition p1.y different
from p2.y holds and line_normal returns (-1, 4, 0) (under an identity
rescaling), whose xy-projection has dot product -3, not 0, with the
xy-projection of p1 - p2: the returned vector is a point position on the
perpendicular line, not a perpendicular direction. -/
theorem line_normal_orthogonality_counterexample :
    IsRescaling (fun v => v)
    ∧ line_normal (fun v => v) (0, 3, 0) (0, 0, 0) (1, 1, 0) = .ok (-1, 4, 0)
    ∧ dotXY (-1, 4, 0) (vsub (0, 0, 0) (1, 1, 0)) = -3 := by
  refine ⟨isRescaling_id,
    by norm_num [line_normal, line_normal_point, Except.map],
    by norm_num [dotXY, vsub]⟩

/-- Claim C9 (amended): line_normal divides by p1.y - p2.y with no guard,
raising ZeroDivisionError exactly when the two y coordinates agree; for
every input meeting the precondition it returns a vector with zero
z-component (for any rescaling normalisation), and the vector from p0 to
the point constructed BEFORE normalisation is orthogonal, in the xy-plane,
to p1 - p2; the returned vector itself is that point's position, not the
perpendicular direction. -/
theorem line_normal_spec (nrm : Vec3 → Vec3) (p0 p1 p2 : Vec3)
    (hr : IsRescaling nrm) :
    (exceptOk (line_normal nrm p0 p1 p2) = true ↔ p1.2.1 - p2.2.1 ≠ 0)
    ∧ (∀ v, line_normal nrm p0 p1 p2 = .ok v → v.2.2 = 0)
    ∧ (∀ w, line_normal_point p0 p1 p2 = .ok w →
        dotXY (vsub w p0) (vsub p1 p2) = 0 ∧ w.2.2 = 0) := by
  refine ⟨?_, ?_, ?_⟩
  · unfold line_normal line_normal_point
    by_cases hy : p1.2.1 - p2.2.1 = 0
    · rw [if_pos hy]
      simp [exceptOk, hy, Except.map]
    · rw [if_neg hy]
      simp [exceptOk, hy, Except.map]
  · intro v hv
    unfold line_normal line_normal_point at hv
    by_cases hy : p1.2.1 - p2.2.1 = 0
    · rw [if_pos hy] at hv
      exact absurd hv (by simp [Except.map])
    · rw [if_neg hy] at hv
      simp only [Except.map] at hv
      obtain ⟨c, hc0, hc⟩ := hr (p0.1 - 1,
        (p0.1 - 1) * (-(p1.1 - p2.1) / (p1.2.1 - p2.2.1)) + p0.2.1
          - -(p1.1 - p2.1) / (p1.2.1 - p2.2.1) * p0.1, 0)
      rw [hc] at hv
      have hv' := (Except.ok.inj hv).symm
      rw [hv']
      simp
  · intro w hw
    unfold line_normal_point at hw
    by_cases hy : p1.2.1 - p2.2.1 = 0
    · rw [if_pos hy] at hw
      exact absurd hw (by simp)
    · rw [if_neg hy] at hw
      have hw' := (Except.ok.inj hw).symm
      subst hw'
      constructor
      · unfold dotXY vsub
        field_simp
        ring
      · rfl

/-- Witness for the C9 theorem at a concrete input with distinct y
coordinates, under the identity rescaling. -/
theorem line_normal_spec_witness :
    IsRescaling (fun v => v)
    ∧ ((exceptOk (line_normal (fun v => v) (0, 3, 0) (0, 0, 0) (1, 1, 0)) = true ↔
          ((0, 0, 0) : Vec3).2.1 - ((1, 1, 0) : Vec3).2.1 ≠ 0)
      ∧ (∀ v, line_normal (fun v => v) (0, 3, 0) (0, 0, 0) (1, 1, 0) = .ok v → v.2.2 = 0)
      ∧ (∀ w, line_normal_point (0, 3, 0) (0, 0, 0) (1, 1, 0) = .ok w →
          dotXY (vsub w (0, 3, 0)) (vsub (0, 0, 0) (1, 1, 0)) = 0 ∧ w.2.2 = 0)) :=
  ⟨isRescaling_id,
    line_normal_spec (fun v => v) (0, 3, 0) (0, 0, 0) (1, 1, 0) isRescaling_id⟩

end ClaimC9

section ClaimC2C5

instance {ε α : Type} [DecidableEq ε] [DecidableEq α] :
    DecidableEq (Except ε α) := fun a b =>
  match a, b with
  | .ok x, .ok y =>
    decidable_of_iff (x = y)
      ⟨fun h => h ▸ rfl, fun h => Except.ok.inj h⟩
  | .error x, .error y =>
    decidable_of_iff (x = y)
      ⟨fun h => h ▸ rfl, fun h => Except.error.inj h⟩
  | .ok _, .error _ => isFalse (fun hc => Except.noConfusion hc)
  | .error _, .ok _ => isFalse (fun hc => Except.noConfusion hc)

/-- A concrete renderer standing in for the host's str() on numbers, used
to instantiate the universally quantified theorems at concrete inputs. -/
def ratStr (q : ℚ) : Str := (toString q).toList

/-- Coefficient lines never contain a newline when the rendered numbers do
not. -/
theorem noNL_flatten (strFn : ℚ → Str) (qs : List ℚ)
    (h : ∀ q ∈ qs, '\n' ∉ strFn q) :
    '\n' ∉ (qs.map (fun i => strFn i ++ [' '])).flatten := by
  intro hmem
  rw [List.mem_flatten] at hmem
  obtain ⟨l, hl, hcl⟩ := hmem
  rw [List.mem_map] at hl
  obtain ⟨q, hq, rfl⟩ := hl
  rcases List.mem_append.mp hcl with h1 | h2
  · exact h q hq h1
  · simp at h2

/-- The demonstration state whose fit a save would write: one a- and one
b-coefficient, center (1, 2), single-piece mode off. -/
def saveDemoState : CanvasState :=
  { single_piece_mode := false, center := (1, 2), a := [3], b := [4] }

/-- The same demonstration state with single-piece mode on (the __init__
default). -/
def saveDemoSingle : CanvasState :=
  { center := (1, 2), a := [3], b := [4] }

/-- Claim C2, counterexample to the claim as stated: when single-piece
mode is off, save_dataFn writes no newline after the range tag, so the
record has THREE lines, not four, and the first line is the range tag
immediately followed by the center line. -/
theorem save_dataFn_fourLine_counterexample :
    (pyReadlines (save_dataFn ratStr saveDemoState)).length = 3
    ∧ (pyReadlines (save_dataFn ratStr saveDemoState)).headD []
        = "range:center: 1 2".toList := by
  constructor
  · decide
  · decide

/-- Claim C2 (amended): when single-piece mode is active, save_dataFn
writes a four-line record: the line range:0-360 (with a trailing blank),
then center: x y, then the a-line, then the b-line, each coefficient
rendered in list order (harmonic index k = 1 upward) followed by a blank;
when single-piece mode is inactive no newline is written after the range
tag, so the record has three lines and the first line is range: directly
followed by the center line.  (Hypothesis: the host's number rendering
contains no newline.) -/
theorem save_dataFn_lines (strFn : ℚ → Str) (st : CanvasState)
    (h : ∀ q ∈ st.a ++ st.b ++ [st.center.1, st.center.2],
        '\n' ∉ strFn q) :
    (pyReadlines (save_dataFn strFn st)
      = if st.single_piece_mode = true then
          [rangeTag ++ singleRangeChunk, centerChunk strFn st,
           aChunk strFn st, bChunk strFn st]
        else
          [rangeTag ++ centerChunk strFn st, aChunk strFn st,
           bChunk strFn st])
    ∧ (pyReadlines (save_dataFn strFn st)).length
        = if st.single_piece_mode = true then 4 else 3 := by
  have hc : '\n' ∉ centerChunk strFn st := by
    unfold centerChunk
    intro hmem
    rcases List.mem_append.mp hmem with h1 | h2
    · rcases List.mem_append.mp h1 with h3 | h4
      · rcases List.mem_append.mp h3 with h5 | h6
        · exact absurd h5 (by decide)
        · exact h st.center.1 (by simp) h6
      · simp at h4
    · exact h st.center.2 (by simp) h2
  have ha : '\n' ∉ aChunk strFn st := by
    unfold aChunk
    intro hmem
    rcases List.mem_append.mp hmem with h1 | h2
    · exact absurd h1 (by decide)
    · exact noNL_flatten strFn st.a (fun q hq => h q (by simp [hq])) h2
  have hb : '\n' ∉ bChunk strFn st := by
    unfold bChunk
    intro hmem
    rcases List.mem_append.mp hmem with h1 | h2
    · exact absurd h1 (by decide)
    · exact noNL_flatten strFn st.b (fun q hq => h q (by simp [hq])) h2
  by_cases hsp : st.single_piece_mode = true
  · have hsave : save_dataFn strFn st
        = joinNL [rangeTag ++ singleRangeChunk, centerChunk strFn st,
            aChunk strFn st, bChunk strFn st] := by
      simp [save_dataFn, hsp, joinNL, nlC, List.append_assoc]
    rw [hsave, pyReadlines_joinNL]
    · rw [if_pos hsp, if_pos hsp]
      exact ⟨rfl, rfl⟩
    · intro l hl
      simp only [List.mem_cons, List.not_mem_nil, or_false] at hl
      rcases hl with rfl | rfl | rfl | rfl
      · decide
      · exact hc
      · exact ha
      · exact hb
  · have hsave : save_dataFn strFn st
        = joinNL [rangeTag ++ centerChunk strFn st, aChunk strFn st,
            bChunk strFn st] := by
      simp [save_dataFn, hsp, joinNL, nlC, List.append_assoc]
    rw [hsave, pyReadlines_joinNL]
    · rw [if_neg hsp, if_neg hsp]
      exact ⟨rfl, rfl⟩
    · intro l hl
      simp only [List.mem_cons, List.not_mem_nil, or_false] at hl
      rcases hl with rfl | rfl | rfl
      · intro hmem
        rcases List.mem_append.mp hmem with h1 | h2
        · exact absurd h1 (by decide)
        · exact hc h2
      · exact ha
      · exact hb

/-- Witness for the C2 theorem: the single-piece demonstration state saved
with the concrete renderer produces exactly the four claimed lines. -/
theorem save_dataFn_lines_witness :
    (∀ q ∈ saveDemoSingle.a ++ saveDemoSingle.b
        ++ [saveDemoSingle.center.1, saveDemoSingle.center.2],
      '\n' ∉ ratStr q)
    ∧ ((pyReadlines (save_dataFn ratStr saveDemoSingle)
        = if saveDemoSingle.single_piece_mode = true then
            [rangeTag ++ singleRangeChunk, centerChunk ratStr saveDemoSingle,
             aChunk ratStr saveDemoSingle, bChunk ratStr saveDemoSingle]
          else
            [rangeTag ++ centerChunk ratStr saveDemoSingle,
             aChunk ratStr saveDemoSingle, bChunk ratStr saveDemoSingle])
      ∧ (pyReadlines (save_dataFn ratStr saveDemoSingle)).length
          = if saveDemoSingle.single_piece_mode = true then 4 else 3) :=
  ⟨by decide, save_dataFn_lines ratStr saveDemoSingle (by decide)⟩

/-- Vertex-line parsing fails with ValueError as soon as the first token is
not a float literal. -/
theorem parseVertexLine_head_nonfloat (t0 : Str) (toks : List Str)
    (h : pyFloat t0 = none) :
    parseVertexLine (t0 :: toks) = .error .valueError := by
  simp [parseVertexLine, getTok, toFloat, h]

/-- Claim C5, counterexample: re-parsing a saved .dat record with the
module's file reader does not yield the coefficients back; it raises
ValueError on the very first line (the range tag is not a float), even
though the state held nonempty coefficient lists. -/
theorem dat_roundtrip_counterexample :
    readFile trivCF (save_dataFn ratStr saveDemoSingle)
        = .error .valueError
    ∧ saveDemoSingle.a = [3] ∧ saveDemoSingle.center = (1, 2) := by
  refine ⟨by decide, by decide, by decide⟩

/-- Claim C5 (amended): the module has no .dat re-parser.  Canvas.readFile
parses whitespace-separated x y z vertex lines, so re-parsing any record
written by save_dataFn raises ValueError on the first line, whose first
token starts with the range tag (in single-piece mode) or with the range
tag fused to the center tag (otherwise); no round-trip of a, b, center
through readFile exists. -/
theorem readFile_save_dataFn_error (cf : CurveFitting) (strFn : ℚ → Str)
    (st : CanvasState) :
    readFile cf (save_dataFn strFn st) = .error .valueError := by
  by_cases hsp : st.single_piece_mode = true
  · have hsave : save_dataFn strFn st
        = (rangeTag ++ singleRangeChunk)
            ++ '\n' :: (centerChunk strFn st ++ '\n'
              :: (aChunk strFn st ++ '\n' :: (bChunk strFn st ++ ['\n']))) := by
      simp [save_dataFn, hsp, nlC, List.append_assoc]
    unfold readFile
    rw [hsave, pyReadlines_cons _ _ (by decide),
      parseVertices_head_error _ _ .valueError (by decide)]
    rfl
  · have hws : ("center: ".toList : Str) = "center:".toList ++ [' '] := by
      decide
    have hsave : save_dataFn strFn st
        = (rangeTag ++ "center:".toList)
            ++ ' ' :: (strFn st.center.1 ++ [' '] ++ strFn st.center.2
              ++ '\n' :: (aChunk strFn st ++ '\n'
                :: (bChunk strFn st ++ ['\n']))) := by
      simp [save_dataFn, hsp, centerChunk, hws, nlC, List.append_assoc]
    set R : Str := strFn st.center.1 ++ [' '] ++ strFn st.center.2
      ++ '\n' :: (aChunk strFn st ++ '\n' :: (bChunk strFn st ++ ['\n']))
      with hR
    have hQnl : ∀ x ∈ (rangeTag ++ "center:".toList : Str),
        (fun c => c = '\n' : Char → Bool) x = false := by decide
    have hsplit : splitOnP (fun c => c = '\n')
          ((rangeTag ++ "center:".toList) ++ ' ' :: R)
        = ((rangeTag ++ "center:".toList)
              ++ ' ' :: (splitOnP (fun c => c = '\n') R).headD [])
            :: (splitOnP (fun c => c = '\n') R).tail := by
      rw [splitOnP_append_head _ _ _ hQnl, splitOnP_cons]
      simp
    have hhead : (splitOnP (fun c => c = '\n')
          ((rangeTag ++ "center:".toList) ++ ' ' :: R)).headD []
        = (rangeTag ++ "center:".toList)
            ++ ' ' :: (splitOnP (fun c => c = '\n') R).headD [] := by
      rw [hsplit]
      rfl
    obtain ⟨t, ht⟩ := pyReadlines_head_of_ne
      ((rangeTag ++ "center:".toList) ++ ' ' :: R)
      (by rw [hhead]; simp)
    rw [hhead] at ht
    unfold readFile
    rw [hsave, ht, parseVertices_head_error _ _ .valueError ?_]
    · rfl
    · rw [pySplitWS_sep (rangeTag ++ "center:".toList) _ (by decide)
        (by decide)]
      exact parseVertexLine_head_nonfloat _ _ (by decide)
end ClaimC2C5

section ClaimC3C4

/-- Four distinct vertices of a small closed demonstration curve. -/
def demoVerts : List Vec3 := [(0, 0, 0), (1, 0, 0), (2, 0, 0), (3, 0, 0)]

/-- Angle table of the demonstration curve. -/
def demoAngles : List ℚ := [0, 1, 2, 3]

/-- A canvas state as it stands after loading the demonstration curve. -/
def demoSt : CanvasState :=
  { vertices := demoVerts, angles := demoAngles, numPt := 4 }

/-- Row i of the vertex matrix built by cut_curve is the cyclic slice from
cut point i to cut point (i+1) mod M of the full vertex table. -/
theorem cut_curve_vrow (cf : CurveFitting) (st : CanvasState)
    (cps : List Nat) (i : Nat) (hi : i < cps.length) :
    (cut_curve cf st cps).vertices_matrix.getD i []
      = segRow st.vertices st.numPt (cAt cps i)
          (cAt cps ((i + 1) % cps.length)) := by
  unfold cut_curve
  dsimp only
  rw [List.map_map, getD_map_range _ _ i hi]
  unfold segRow cAt
  dsimp only [Function.comp]
  rw [apply_ite Prod.fst]

/-- Claim C3, counterexample to the claim as stated.  First input: a
single cut point 0, whose start index does not exceed its end index, yet
cut_curve wraps (the test on line 586 is a strict less-than), producing the
whole curve plus a repeated start vertex (5 entries) instead of the
claimed one-vertex span.  Second input: the unsorted cut list [0, 2, 1],
where consecutive segments 1 and 2 share vertex (2,0,0) although their
boundary cut point is vertex (1,0,0).  Third input: the sorted pair
[0, 2], whose two segments share both cut vertices, (0,0,0) as well as the
boundary (2,0,0), not exactly one. -/
theorem cut_curve_span_counterexample :
    ((cut_curve trivCF demoSt [0]).vertices_matrix.getD 0 []).length = 5
    ∧ ((2, 0, 0) : Vec3)
        ∈ (cut_curve trivCF demoSt [0, 2, 1]).vertices_matrix.getD 1 []
    ∧ ((2, 0, 0) : Vec3)
        ∈ (cut_curve trivCF demoSt [0, 2, 1]).vertices_matrix.getD 2 []
    ∧ ((2, 0, 0) : Vec3) ≠ ((1, 0, 0) : Vec3)
    ∧ ((0, 0, 0) : Vec3)
        ∈ (cut_curve trivCF demoSt [0, 2]).vertices_matrix.getD 0 []
    ∧ ((0, 0, 0) : Vec3)
        ∈ (cut_curve trivCF demoSt [0, 2]).vertices_matrix.getD 1 []
    ∧ ((0, 0, 0) : Vec3) ≠ ((2, 0, 0) : Vec3) := by
  refine ⟨by decide, by decide, by decide, by decide, by decide, by decide,
    by decide⟩

/-- Claim C3 (amended): for a CutPointSet of M distinct valid vertex
indices listed in increasing order, cut_curve produces exactly M vertex
rows, angle rows and centers; row i is the span from cut point i to cut
point (i+1) mod M inclusive of both endpoints, wrapping past index N-1
through 0 when the start index is greater than OR EQUAL to the end index
(so a single cut point yields the whole loop with its start vertex
repeated); for M at least 2, consecutive segments share exactly their
boundary cut vertices - the single shared cut point when M is at least 3,
both cut points when M = 2; the union of the segments covers all N
vertices; and each row's center is getCenter of that row's own
vertices. -/
theorem cut_curve_sorted_partition (cf : CurveFitting) (st : CanvasState)
    (cps : List Nat) (hN : st.numPt = st.vertices.length)
    (hM : 1 ≤ cps.length) (hsort : cps.Pairwise (· < ·))
    (hlt : ∀ c ∈ cps, c < st.vertices.length)
    (hnd : st.vertices.Nodup) :
    ((cut_curve cf st cps).vertices_matrix.length = cps.length
      ∧ (cut_curve cf st cps).angles_matrix.length = cps.length
      ∧ (cut_curve cf st cps).segment_center_list.length = cps.length)
    ∧ (∀ i, i < cps.length →
        ((cut_curve cf st cps).vertices_matrix.getD i []).length
          = arcLen st.vertices.length (cAt cps i)
              (cAt cps ((i + 1) % cps.length))
        ∧ ∀ k, k < arcLen st.vertices.length (cAt cps i)
              (cAt cps ((i + 1) % cps.length)) →
            ((cut_curve cf st cps).vertices_matrix.getD i []).getD k
                (0, 0, 0)
              = st.vertices.getD ((cAt cps i + k) % st.vertices.length)
                  (0, 0, 0))
    ∧ (2 ≤ cps.length → ∀ i, i < cps.length →
        ∀ t, t < st.vertices.length →
        ((st.vertices.getD t (0, 0, 0)
            ∈ (cut_curve cf st cps).vertices_matrix.getD i []
          ∧ st.vertices.getD t (0, 0, 0)
            ∈ (cut_curve cf st cps).vertices_matrix.getD
                ((i + 1) % cps.length) [])
          ↔ (t = cAt cps ((i + 1) % cps.length)
            ∨ (cps.length = 2 ∧ t = cAt cps i))))
    ∧ (∀ t, t < st.vertices.length → ∃ i, i < cps.length ∧
        st.vertices.getD t (0, 0, 0)
          ∈ (cut_curve cf st cps).vertices_matrix.getD i [])
    ∧ (cut_curve cf st cps).segment_center_list
        = (cut_curve cf st cps).vertices_matrix.map cf.getCenter := by
  have hboundS : ∀ i, i < cps.length →
      cAt cps i < st.vertices.length := fun i hi =>
    cAt_lt_bound cps st.vertices.length hlt i hi
  have hboundE : ∀ i, cAt cps ((i + 1) % cps.length)
      < st.vertices.length := fun i =>
    hboundS _ (Nat.mod_lt _ (by omega))
  refine ⟨⟨?_, ?_, ?_⟩, ?_, ?_, ?_, ?_⟩
  · unfold cut_curve
    simp
  · unfold cut_curve
    simp
  · unfold cut_curve
    simp
  · intro i hi
    rw [cut_curve_vrow cf st cps i hi, hN]
    exact ⟨segRow_length st.vertices st.vertices.length _ _ rfl
        (hboundS i hi) (hboundE i),
      fun k hk => segRow_getD st.vertices st.vertices.length _ _ rfl
        (hboundS i hi) (hboundE i) (0, 0, 0) k hk⟩
  · intro h2 i hi t ht
    rw [cut_curve_vrow cf st cps i hi,
      cut_curve_vrow cf st cps ((i + 1) % cps.length)
        (Nat.mod_lt _ (by omega)), hN,
      segRow_mem st.vertices st.vertices.length _ _ t rfl
        (hboundS i hi) (hboundE i) ht hnd (0, 0, 0),
      segRow_mem st.vertices st.vertices.length _ _ t rfl
        (hboundS _ (Nat.mod_lt _ (by omega))) (hboundE _) ht hnd
        (0, 0, 0)]
    exact onArc_consecutive cps st.vertices.length hsort hlt h2 i hi t ht
  · intro t ht
    obtain ⟨i, hi, harc⟩ :=
      onArc_cover cps st.vertices.length hsort hlt hM t ht
    refine ⟨i, hi, ?_⟩
    rw [cut_curve_vrow cf st cps i hi, hN,
      segRow_mem st.vertices st.vertices.length _ _ t rfl
        (hboundS i hi) (hboundE i) ht hnd (0, 0, 0)]
    exact harc
  · rfl

/-- Witness for the C3 theorem: the sorted cut pair [1, 3] on the
demonstration curve satisfies every hypothesis, and the theorem yields the
two segments with their centers. -/
theorem cut_curve_sorted_partition_witness :
    (demoSt.numPt = demoSt.vertices.length
      ∧ 1 ≤ ([1, 3] : List Nat).length
      ∧ ([1, 3] : List Nat).Pairwise (· < ·)
      ∧ (∀ c ∈ ([1, 3] : List Nat), c < demoSt.vertices.length)
      ∧ demoSt.vertices.Nodup)
    ∧ ((cut_curve trivCF demoSt [1, 3]).vertices_matrix.length
          = ([1, 3] : List Nat).length
      ∧ (cut_curve trivCF demoSt [1, 3]).angles_matrix.length
          = ([1, 3] : List Nat).length
      ∧ (cut_curve trivCF demoSt [1, 3]).segment_center_list.length
          = ([1, 3] : List Nat).length) :=
  ⟨⟨by decide, by decide, by decide, by decide, by decide⟩,
    (cut_curve_sorted_partition trivCF demoSt [1, 3] (by decide)
      (by decide) (by decide) (by decide) (by decide)).1⟩

/-- Claim C4: for the wrapping segment of cut set [1, 3], line 593 of
curve_fitting_UI.py extends the angle row with self.vertices instead of
self.angles, so the row reads [angle 3, vertex 0, vertex 1]: its tail
entries are MVectors, not the angles of the segment's vertices, although
the row length does match the vertex row. -/
theorem cut_curve_wrap_angles_bug :
    (cut_curve trivCF demoSt [1, 3]).angles_matrix
      = [[PyVal.num 1, PyVal.num 2, PyVal.num 3],
         [PyVal.num 3, PyVal.vec (0, 0, 0), PyVal.vec (1, 0, 0)]]
    ∧ ((cut_curve trivCF demoSt [1, 3]).angles_matrix.getD 1 []).getD 1
        (PyVal.num 99) ≠ PyVal.num (demoAngles.getD 0 0)
    ∧ ((cut_curve trivCF demoSt [1, 3]).angles_matrix.getD 1 []).length
        = ((cut_curve trivCF demoSt [1, 3]).vertices_matrix.getD 1
            []).length := by
  refine ⟨by decide, by decide, by decide⟩

end ClaimC3C4

section ClaimC6C7C8C10

/-- Embedding of the canvas effect of update_visibility_manual_J_mode
(curve_fitting_UI.py lines 338-340). -/
def set_manualJ_mode (st : CanvasState) (checked : Bool) : CanvasState :=
  { st with manualJ_mode := checked, autoJ_mode := !checked }

theorem mem_take_getD (xs : List α) (m t : Nat) (hm : m ≤ xs.length)
    (ht : t < xs.length) (hnd : xs.Nodup) (d : α) :
    xs.getD t d ∈ xs.take m ↔ t < m := by
  constructor
  · intro hmem
    obtain ⟨k, hk, heq⟩ := List.mem_iff_getElem.mp hmem
    have hk2 : k < m := by
      simp [List.length_take] at hk
      omega
    have hk3 : k < xs.length := by omega
    rw [List.getElem_take, List.getD_eq_getElem _ _ ht] at heq
    have := (hnd.getElem_inj_iff).mp heq
    omega
  · intro htm
    have hx : t < (xs.take m).length := by
      simp [List.length_take]
      omega
    have heq : (xs.take m)[t] = xs[t] := List.getElem_take ..
    rw [List.getD_eq_getElem _ _ ht, ← heq]
    exact List.getElem_mem hx

theorem mem_drop_getD (xs : List α) (m t : Nat) (hm : m ≤ xs.length)
    (ht : t < xs.length) (hnd : xs.Nodup) (d : α) :
    xs.getD t d ∈ xs.drop m ↔ m ≤ t := by
  constructor
  · intro hmem
    obtain ⟨k, hk, heq⟩ := List.mem_iff_getElem.mp hmem
    rw [List.getElem_drop, List.getD_eq_getElem _ _ ht] at heq
    have := (hnd.getElem_inj_iff).mp heq
    omega
  · intro htm
    have hx : t - m < (xs.drop m).length := by
      simp [List.length_drop]
      omega
    have : (xs.drop m)[t - m] = xs.getD t d := by
      rw [List.getElem_drop, List.getD_eq_getElem _ _ ht]
      congr 1
      omega
    rw [← this]
    exact List.getElem_mem hx

/-- Inversion of a successful loadState: the derived fields in terms of
the loaded vertex list. -/
theorem loadState_ok (cf : CurveFitting) (vs : List Vec3) (st : CanvasState)
    (h : loadState cf vs = .ok st) :
    st.d_bar = cf.get_d_bar vs (cf.getCenter vs)
    ∧ st.vertices_first_half = pySlice vs 0 (vs.length / 2 + 1)
    ∧ st.vertices_second_half
        = pySlice vs (vs.length / 2) vs.length ++ [vs.getD 0 (0, 0, 0)]
    ∧ st.center_first_half = cf.getCenter st.vertices_first_half
    ∧ st.center_second_half = cf.getCenter st.vertices_second_half := by
  cases vs with
  | nil => exact absurd h (by simp [loadState])
  | cons v0 vtl =>
    unfold loadState at h
    dsimp only at h
    cases hA : cf.calculateAngle (v0 :: vtl) (cf.getCenter (v0 :: vtl)) with
    | nil =>
      rw [hA] at h
      exact absurd h (by simp)
    | cons a0 atl =>
      rw [hA] at h
      injection h with h'
      subst h'
      exact ⟨rfl, rfl, rfl, rfl, rfl⟩

/-- Claim C6: after readFile loads a closed curve of N vertices, the first
half is vertices 0 through N/2 inclusive (N/2 the Python 2 floor
division), the second half is vertices N/2 through N-1 followed by vertex
0, the two halves share exactly the boundary vertices at indices N/2 and
0, and each half's center is computed from that half's own vertices. -/
theorem readFile_symmetric_split (cf : CurveFitting) (vs : List Vec3)
    (st : CanvasState) (h : loadState cf vs = .ok st)
    (hlen : 2 ≤ vs.length) (hnd : vs.Nodup) :
    (st.vertices_first_half.length = vs.length / 2 + 1
      ∧ ∀ k, k ≤ vs.length / 2 →
          st.vertices_first_half.getD k (0, 0, 0) = vs.getD k (0, 0, 0))
    ∧ (st.vertices_second_half.length = vs.length - vs.length / 2 + 1
      ∧ (∀ k, k < vs.length - vs.length / 2 →
          st.vertices_second_half.getD k (0, 0, 0)
            = vs.getD (vs.length / 2 + k) (0, 0, 0))
      ∧ st.vertices_second_half.getD (vs.length - vs.length / 2) (0, 0, 0)
          = vs.getD 0 (0, 0, 0))
    ∧ (∀ t, t < vs.length →
        ((vs.getD t (0, 0, 0) ∈ st.vertices_first_half
          ∧ vs.getD t (0, 0, 0) ∈ st.vertices_second_half)
          ↔ (t = 0 ∨ t = vs.length / 2)))
    ∧ st.center_first_half = cf.getCenter st.vertices_first_half
    ∧ st.center_second_half = cf.getCenter st.vertices_second_half := by
  obtain ⟨hdb, h1, h2, hc1, hc2⟩ := loadState_ok cf vs st h
  have hfh : st.vertices_first_half = vs.take (vs.length / 2 + 1) := by
    rw [h1]
    unfold pySlice
    rw [List.drop_zero]
  have hsh : st.vertices_second_half
      = vs.drop (vs.length / 2) ++ [vs.getD 0 (0, 0, 0)] := by
    rw [h2]
    unfold pySlice
    rw [List.take_length]
  have hIN : vs.length / 2 + 1 ≤ vs.length := by omega
  refine ⟨⟨?_, ?_⟩, ⟨?_, ?_, ?_⟩, ?_, hc1, hc2⟩
  · rw [hfh]
    simp [List.length_take]
    omega
  · intro k hk
    rw [hfh]
    have hx : k < (vs.take (vs.length / 2 + 1)).length := by
      simp [List.length_take]
      omega
    rw [List.getD_eq_getElem _ _ hx,
      List.getD_eq_getElem _ _ (by omega : k < vs.length),
      List.getElem_take]
  · rw [hsh]
    simp [List.length_drop]
  · intro k hk
    rw [hsh]
    have hd : k < (vs.drop (vs.length / 2)).length := by
      simp [List.length_drop]
      omega
    have hx : k < (vs.drop (vs.length / 2)
        ++ [vs.getD 0 (0, 0, 0)]).length := by
      simp [List.length_drop]
      omega
    rw [List.getD_eq_getElem _ _ hx,
      List.getD_eq_getElem _ _ (by omega : vs.length / 2 + k < vs.length),
      List.getElem_append_left hd, List.getElem_drop]
  · rw [hsh]
    have hd : (vs.drop (vs.length / 2)).length ≤ vs.length - vs.length / 2 := by
      simp [List.length_drop]
    have hx : vs.length - vs.length / 2 < (vs.drop (vs.length / 2)
        ++ [vs.getD 0 (0, 0, 0)]).length := by
      simp [List.length_drop]
    rw [List.getD_eq_getElem _ _ hx, List.getElem_append_right hd]
    simp [List.length_drop]
  · intro t ht
    rw [hfh, hsh, List.mem_append,
      mem_take_getD vs (vs.length / 2 + 1) t (by omega) ht hnd,
      mem_drop_getD vs (vs.length / 2) t (by omega) ht hnd]
    have h0 : vs.getD t (0, 0, 0) ∈ [vs.getD 0 (0, 0, 0)] ↔ t = 0 := by
      simp only [List.mem_singleton]
      rw [List.getD_eq_getElem _ _ ht,
        List.getD_eq_getElem _ _ (by omega : 0 < vs.length)]
      exact hnd.getElem_inj_iff
    rw [h0]
    omega

/-- Five distinct vertices for the symmetric-split witness. -/
def demoVerts5 : List Vec3 :=
  [(0, 0, 0), (1, 0, 0), (2, 0, 0), (3, 0, 0), (4, 0, 0)]

/-- The state loadState builds from the five demonstration vertices. -/
def demoLoaded : CanvasState :=
  match loadState trivCF demoVerts5 with
  | .ok s => s
  | .error _ => {}

/-- Witness for the C6 theorem on the five-vertex demonstration curve. -/
theorem readFile_symmetric_split_witness :
    (loadState trivCF demoVerts5 = .ok demoLoaded
      ∧ 2 ≤ demoVerts5.length ∧ demoVerts5.Nodup)
    ∧ (demoLoaded.vertices_first_half.length = demoVerts5.length / 2 + 1
      ∧ ∀ k, k ≤ demoVerts5.length / 2 →
          demoLoaded.vertices_first_half.getD k (0, 0, 0)
            = demoVerts5.getD k (0, 0, 0)) :=
  ⟨⟨by decide, by decide, by decide⟩,
    (readFile_symmetric_split trivCF demoVerts5 demoLoaded (by decide)
      (by decide) (by decide)).1⟩

/-- The second-half coefficients a symmetry-mode draw computes are exactly
the second-half derivation applied to the run's own first-half
coefficients. -/
theorem draw_symmetry_second (cf : CurveFitting) (st : CanvasState)
    (r : SymmetryRun) (h : draw_symmetry cf st = some r) :
    (r.a_second_half, r.b_second_half)
      = cf.getCoefficients_for_second_half_of_symmetrical_ellipse
          r.a_first_half r.b_first_half := by
  unfold draw_symmetry at h
  by_cases hc : st.manualJ_mode = true ∨ st.autoJ_mode = true
  · rw [if_pos hc] at h
    injection h with h'
    subst h'
    rfl
  · rw [if_neg hc] at h
    exact absurd h (by simp)

/-- Claim C7: the symmetric second-half coefficients are a function of the
first-half coefficients alone - any two symmetry-mode runs (over the same
curve_fitting module) that agree on the first-half coefficients produce
identical second-half coefficients, whatever their second-half vertices,
angles and centers are; they are never independently fit. -/
theorem symmetric_second_half_noninterference (cf : CurveFitting)
    (st1 st2 : CanvasState) (r1 r2 : SymmetryRun)
    (h1 : draw_symmetry cf st1 = some r1)
    (h2 : draw_symmetry cf st2 = some r2)
    (ha : r1.a_first_half = r2.a_first_half)
    (hb : r1.b_first_half = r2.b_first_half) :
    r1.a_second_half = r2.a_second_half
    ∧ r1.b_second_half = r2.b_second_half := by
  have e1 := draw_symmetry_second cf st1 r1 h1
  have e2 := draw_symmetry_second cf st2 r2 h2
  rw [ha, hb] at e1
  have e3 := e1.trans e2.symm
  exact ⟨congrArg Prod.fst e3, congrArg Prod.snd e3⟩

/-- First symmetry-mode demonstration state: manual J, junk second-half
vertices. -/
def symSt1 : CanvasState :=
  { manualJ_mode := true, vertices_second_half := [(9, 9, 9)] }

/-- Second symmetry-mode demonstration state: same first-half data, but
different second-half angles and center. -/
def symSt2 : CanvasState :=
  { manualJ_mode := true, angles_second_half := [5],
    center_second_half := (7, 7) }

/-- The symmetry run the trivial module produces on both demonstration
states. -/
def demoSymRun : SymmetryRun :=
  { J := 10, a_first_half := [], b_first_half := [],
    a_second_half := [], b_second_half := [], verts := [], Ea := 0, Em := 0 }

/-- Witness for the C7 theorem: two runs over states with different
second-half data but equal first-half coefficients. -/
theorem symmetric_second_half_noninterference_witness :
    (draw_symmetry trivCF symSt1 = some demoSymRun
      ∧ draw_symmetry trivCF symSt2 = some demoSymRun
      ∧ demoSymRun.a_first_half = demoSymRun.a_first_half
      ∧ demoSymRun.b_first_half = demoSymRun.b_first_half)
    ∧ (demoSymRun.a_second_half = demoSymRun.a_second_half
      ∧ demoSymRun.b_second_half = demoSymRun.b_second_half) :=
  ⟨⟨by decide, by decide, rfl, rfl⟩,
    symmetric_second_half_noninterference trivCF symSt1 symSt2
      demoSymRun demoSymRun (by decide) (by decide) rfl rfl⟩

/-- Claim C8: in fragment mode the baseline handed to
form_vertices_of_fragment is the d_bar computed at load time from the full
vertex set and the full-curve center (line 626), not one recomputed from
the fragment's own vertices or center: whatever fragment range the slider
selects, the d_bar argument of the fragment fit equals
get_d_bar(full vertices, getCenter(full vertices)). -/
theorem fragment_baseline_from_load (cf : CurveFitting) (vs : List Vec3)
    (st : CanvasState) (h : loadState cf vs = .ok st) (r : ℚ)
    (c : FragmentCall)
    (hc : draw_fragment_call cf
        (set_fragment_range (set_manualJ_mode st true) r) = some c) :
    c.d_bar = cf.get_d_bar vs (cf.getCenter vs) ∧ c.d_bar = st.d_bar := by
  have hdb := (loadState_ok cf vs st h).1
  unfold draw_fragment_call set_fragment_range set_manualJ_mode at hc
  rw [if_pos rfl] at hc
  injection hc with hc'
  subst hc'
  exact ⟨hdb, rfl⟩

/-- One-vertex curve for the fragment-baseline witness. -/
def fragVerts : List Vec3 := [(1, 2, 3)]

/-- The state loadState builds from the one-vertex curve. -/
def fragLoaded : CanvasState :=
  match loadState trivCF fragVerts with
  | .ok s => s
  | .error _ => {}

/-- The fragment call the trivial module builds at range 1/2. -/
def demoFragCall : FragmentCall :=
  match draw_fragment_call trivCF
      (set_fragment_range (set_manualJ_mode fragLoaded true) (1 / 2)) with
  | some c => c
  | none => { a := [], b := [], vertices := [], center := (0, 0),
              angles := [], d_bar := [], start_index := 0 }

/-- Witness for the C8 theorem on the one-vertex curve at range 1/2. -/
theorem fragment_baseline_from_load_witness :
    (loadState trivCF fragVerts = .ok fragLoaded
      ∧ draw_fragment_call trivCF
          (set_fragment_range (set_manualJ_mode fragLoaded true) (1 / 2))
        = some demoFragCall)
    ∧ (demoFragCall.d_bar = trivCF.get_d_bar fragVerts
          (trivCF.getCenter fragVerts)
      ∧ demoFragCall.d_bar = fragLoaded.d_bar) :=
  ⟨⟨by decide, by decide⟩,
    fragment_baseline_from_load trivCF fragVerts fragLoaded (by decide)
      (1 / 2) demoFragCall (by decide)⟩

/-- Claim C10: the class tolerance attributes are Ea_criteria = 0.01 and
Em_criteria = 0.025, and every automatic order search any drawing branch
performs - single-piece and symmetric findJ, composite
composite_auto_mode - consults the searched functions only at exactly
these tolerances: replacing them by any functions that agree at
(Ea_criteria, Em_criteria) leaves all four branches' outputs unchanged,
so no code path ever passes different tolerance values. -/
theorem order_search_fixed_tolerances :
    Canvas.Ea_criteria = 1 / 100 ∧ Canvas.Em_criteria = 1 / 40
    ∧ ∀ (cf : CurveFitting)
        (fJ : List Vec3 → List ℚ → List ℚ → Center → ℚ → ℚ → Nat)
        (cA : List (List Vec3) → List (List PyVal) → List Center →
          List Nat → List ℚ → ℚ → ℚ → List (List Vec3) × ℚ × ℚ)
        (st : CanvasState),
        (∀ v a d c, fJ v a d c Canvas.Ea_criteria Canvas.Em_criteria
            = cf.findJ v a d c Canvas.Ea_criteria Canvas.Em_criteria) →
        (∀ vm am cl cp db,
            cA vm am cl cp db Canvas.Ea_criteria Canvas.Em_criteria
            = cf.composite_auto_mode vm am cl cp db Canvas.Ea_criteria
                Canvas.Em_criteria) →
        (draw_single_piece
            { cf with findJ := fJ, composite_auto_mode := cA } st
          = draw_single_piece cf st
        ∧ draw_symmetry
            { cf with findJ := fJ, composite_auto_mode := cA } st
          = draw_symmetry cf st
        ∧ draw_fragment
            { cf with findJ := fJ, composite_auto_mode := cA } st
          = draw_fragment cf st
        ∧ draw_composite
            { cf with findJ := fJ, composite_auto_mode := cA } st
          = draw_composite cf st) := by
  refine ⟨by norm_num [Canvas.Ea_criteria],
    by norm_num [Canvas.Em_criteria], ?_⟩
  intro cf fJ cA st hJ hC
  refine ⟨?_, ?_, rfl, ?_⟩
  · unfold draw_single_piece
    dsimp only
    rw [hJ]
  · unfold draw_symmetry
    dsimp only
    rw [hJ]
  · unfold draw_composite
    dsimp only
    rw [hC]

/-- The trivial module with its own two search functions written back in:
the concrete instance of the C10 replacement. -/
def trivCFcopy : CurveFitting :=
  { trivCF with findJ := trivCF.findJ,
                composite_auto_mode := trivCF.composite_auto_mode }

/-- Witness for the C10 theorem: the trivial module's own search functions
agree with themselves at the class tolerances, and all four branches agree
on the default state. -/
theorem order_search_fixed_tolerances_witness :
    (∀ v a d c, trivCF.findJ v a d c Canvas.Ea_criteria Canvas.Em_criteria
        = trivCF.findJ v a d c Canvas.Ea_criteria Canvas.Em_criteria)
    ∧ (draw_single_piece trivCFcopy {} = draw_single_piece trivCF {}
      ∧ draw_symmetry trivCFcopy {} = draw_symmetry trivCF {}
      ∧ draw_fragment trivCFcopy {} = draw_fragment trivCF {}
      ∧ draw_composite trivCFcopy {} = draw_composite trivCF {}) :=
  ⟨fun _ _ _ _ => rfl,
    order_search_fixed_tolerances.2.2 trivCF trivCF.findJ
      trivCF.composite_auto_mode {} (fun _ _ _ _ => rfl)
      (fun _ _ _ _ _ => rfl)⟩

end ClaimC6C7C8C10
